import Mathlib

/-!
# Blog API: a shallow embedding of the controllers and their utilities

Sources embedded here:

* `src/utils/readingTime.js`  (`calculateReadingTime`)
* `src/utils/paginate.js`     (`paginate`)
* `src/models/Blog.js`        (the blog schema and its constraints)
* `src/controllers/blogController.js`, `src/controllers/authController.js`

JavaScript strings are lists of characters.  Every character the code tests
(`"-"`, `" "`, `","`, the prefix `"Bearer "` and the white space class) lies in
the basic multilingual plane, so nothing here depends on the difference between
UTF-16 code units and code points.
-/

namespace BlogApi

/-- A JavaScript string. -/
abbrev Str := List Char

/-! ## White space, `trim` and `split(/\s+/)` -/

/-- The class `\s` of a JavaScript regular expression, which is also the set
`String.prototype.trim` strips: WhiteSpace and LineTerminator of ECMAScript. -/
def isJsSpace (c : Char) : Bool :=
  let n := c.toNat
  n == 0x09 || n == 0x0A || n == 0x0B || n == 0x0C || n == 0x0D || n == 0x20 ||
  n == 0xA0 || n == 0x1680 || (0x2000 ≤ n && n ≤ 0x200A) || n == 0x2028 ||
  n == 0x2029 || n == 0x202F || n == 0x205F || n == 0x3000 || n == 0xFEFF

/-- The method `String.prototype.trim`. -/
def jsTrim (t : Str) : Str :=
  ((t.dropWhile isJsSpace).reverse.dropWhile isJsSpace).reverse

/-- The call `text.split(/\s+/)`, scanning left to right.  `inSep` says that the
scan is inside a run of white space (the piece before it is already emitted),
`cur` is the piece being read, reversed.  As in JavaScript a separator at the
very start or the very end leaves an empty piece there, and the empty string
splits into one empty piece. -/
def splitSpaces (inSep : Bool) (cur : Str) : Str → List Str
  | [] => [cur.reverse]
  | c :: cs =>
    if isJsSpace c then
      if inSep then splitSpaces true [] cs
      else cur.reverse :: splitSpaces true [] cs
    else splitSpaces false (c :: cur) cs

/-- The call `text.split(/\s+/)`. -/
def jsSplitSpaces (t : Str) : List Str := splitSpaces false [] t

/-- The expression `text.trim().split(/\s+/).filter(Boolean).length`. -/
def countWords (t : Str) : Nat :=
  ((jsSplitSpaces (jsTrim t)).filter (fun w => !w.isEmpty)).length

/-- The function `calculateReadingTime` of `utils/readingTime.js`.  `none` is
an absent text (`undefined` or `null`).  `Math.ceil(words / 200)` is the
rounded-up quotient; the division of a string length by 200 is far below the
range where a double could round across an integer. -/
def calculateReadingTime (text : Option Str) : Nat :=
  match text with
  | none => 1
  | some t =>
    if t.isEmpty then 1
    else
      let words := countWords t
      let minutes := (words + 199) / 200
      if minutes = 0 then 1 else minutes

/-- The spec's word count: the number of maximal runs of characters that are
not white space, counted at the position where each run starts.  `prevSpace`
says that the position before is white space or the start of the text. -/
def wordStarts (prevSpace : Bool) : Str → Nat
  | [] => 0
  | c :: cs =>
    (if prevSpace && !isJsSpace c then 1 else 0) + wordStarts (isJsSpace c) cs

/-- The spec's `wordCount`: how many maximal runs of non-white-space
characters the text has. -/
def wordCount (t : Str) : Nat := wordStarts true t

/-! ## JavaScript numbers and `paginate` -/

/-- A JavaScript number: not-a-number, the two infinities, or a finite value.
Finite values are exact rationals: rounding and overflow of doubles are left
out, and so is the sign of zero. -/
inductive JsNum where
  | nan
  | posInf
  | negInf
  | fin (q : ℚ)
  deriving DecidableEq

namespace JsNum

/-- Truthiness of a number: `NaN` and `0` are falsy. -/
def truthy : JsNum → Bool
  | nan => false
  | fin q => decide (q ≠ 0)
  | _ => true

/-- The expression `x || d` on numbers. -/
def orElse (x d : JsNum) : JsNum := if x.truthy then x else d

/-- The call `Math.max(x, 1)`. -/
def maxOne : JsNum → JsNum
  | nan => nan
  | posInf => posInf
  | negInf => fin 1
  | fin q => fin (max q 1)

/-- The expression `x - 1`. -/
def subOne : JsNum → JsNum
  | fin q => fin (q - 1)
  | x => x

/-- The sign of a number that is not `NaN`: -1, 0 or 1. -/
def sign : JsNum → Int
  | nan => 0
  | posInf => 1
  | negInf => -1
  | fin q => if q < 0 then -1 else if q = 0 then 0 else 1

/-- The product `x * y`: `NaN` absorbs, zero times an infinity is `NaN`. -/
def mul : JsNum → JsNum → JsNum
  | nan, _ => nan
  | _, nan => nan
  | fin a, fin b => fin (a * b)
  | x, y =>
    if x.sign * y.sign = 0 then nan
    else if x.sign * y.sign = 1 then posInf else negInf

/-- The comparison `x >= y`, false as soon as one side is `NaN`. -/
def ge : JsNum → JsNum → Bool
  | nan, _ => false
  | _, nan => false
  | _, negInf => true
  | negInf, _ => false
  | posInf, _ => true
  | fin _, posInf => false
  | fin a, fin b => decide (b ≤ a)

/-- Strict equality `x === y`: `NaN` equals nothing. -/
def strictEq : JsNum → JsNum → Bool
  | nan, _ => false
  | _, nan => false
  | x, y => decide (x = y)

end JsNum

/-- What `paginate` returns. -/
structure Pagination where
  skip : JsNum
  limit : JsNum
  page : JsNum
  deriving DecidableEq

/-- The function `paginate` of `utils/paginate.js`.  An argument is `none` when
the property is `undefined` (the destructuring default applies) and otherwise
carries the number `Number(...)` coerces the value to: a query string that is
no number gives `NaN`, the string `"Infinity"` gives `+Infinity`. -/
def paginate (page limit : Option JsNum) : Pagination :=
  let page := page.getD (.fin 1)
  let limit := limit.getD (.fin 20)
  let page := (page.orElse (.fin 1)).maxOne
  let limit := (limit.orElse (.fin 20)).maxOne
  let skip := page.subOne.mul limit
  { skip := skip, limit := limit, page := page }

/-! ## Libraries the controllers call -/

/-- A MongoDB ObjectId.  The driver never hands out the same id twice; the
store keeps a counter for that. -/
abbrev Oid := Nat

/-- The payload `jwt.verify` decodes: `id` is `none` when the property is
missing or is no string. -/
structure JwtPayload where
  id : Option Str
  email : Option Str
  deriving DecidableEq

/-- The library functions the controllers rely on and whose code is outside
the repository (mongoose/bson, jsonwebtoken, bcryptjs, the regular expression
engine).  They are parameters of every controller. -/
structure Lib where
  /-- Casting a string to an ObjectId; `ObjectId.isValid` holds exactly when
  the cast succeeds. -/
  castObjectId : Str → Option Oid
  /-- The conversion `String(oid)`. -/
  oidToString : Oid → Str
  /-- The call `jwt.verify(token, secret)`; `none` when it throws. -/
  jwtVerify : Str → Option JwtPayload
  /-- The call `jwt.sign(payload, secret, options)`. -/
  jwtSign : JwtPayload → Str
  /-- The call `bcrypt.hash(password, 10)`. -/
  bcryptHash : Str → Str
  /-- Whether a pattern is a well-formed regular expression. -/
  regexCompiles : Str → Bool
  /-- Case-insensitive search of a pattern in a subject. -/
  regexTest : Str → Str → Bool

/-- The call `mongoose.Types.ObjectId.isValid(id)`. -/
def Lib.isValid (lib : Lib) (id : Str) : Bool := (lib.castObjectId id).isSome

/-! ## Documents and the store -/

/-- The enum of the `state` path of the blog schema. -/
inductive BlogState where
  | draft
  | published
  deriving DecidableEq, Repr

/-- The string stored for a state. -/
def BlogState.toStr : BlogState → Str
  | .draft => "draft".toList
  | .published => "published".toList

/-- Validation of a string against the enum `["draft", "published"]`. -/
def BlogState.ofStr? (s : Str) : Option BlogState :=
  if s = "draft".toList then some .draft
  else if s = "published".toList then some .published
  else none

/-- A document of the blog collection (`models/Blog.js`).  `read_count` and
`reading_time` are natural numbers; `timestamp` is a date in milliseconds.
The paths `createdAt` and `updatedAt`, which the store maintains itself from
the clock, are not part of the embedding. -/
structure Blog where
  _id : Oid
  title : Str
  description : Option Str
  author : Oid
  state : BlogState
  read_count : Nat
  reading_time : Nat
  tags : List Str
  body : Str
  timestamp : Nat
  deriving DecidableEq

/-- Modelled from the spec: `models/User.js` is not among the sources.  A user
has an identity, first and last name, an email, the hash of the password and
an optional bio. -/
structure User where
  _id : Oid
  first_name : Str
  last_name : Str
  email : Str
  password : Str
  bio : Option Str
  deriving DecidableEq

/-- The two collections, and the counter ObjectIds are drawn from. -/
structure Store where
  users : List User
  blogs : List Blog
  nextId : Nat
  deriving DecidableEq

/-- A store with no document. -/
def Store.empty : Store := { users := [], blogs := [], nextId := 0 }

/-- The query `Blog.findById` once the id is cast. -/
def Store.findBlog (s : Store) (i : Oid) : Option Blog :=
  s.blogs.find? (fun b => b._id == i)

/-- The query `Blog.findOne({ title })`. -/
def Store.findBlogByTitle (s : Store) (title : Str) : Option Blog :=
  s.blogs.find? (fun b => b.title == title)

/-- The query `User.findOne({ email })`. -/
def Store.findUserByEmail (s : Store) (email : Str) : Option User :=
  s.users.find? (fun u => u.email == email)

/-- The query behind `populate("author", ...)`. -/
def Store.findUser (s : Store) (i : Oid) : Option User :=
  s.users.find? (fun u => u._id == i)

/-- Writing back the document with the id of `b`. -/
def Store.replaceBlog (s : Store) (b : Blog) : Store :=
  { s with blogs := s.blogs.map (fun x => if x._id = b._id then b else x) }

/-- The call `blog.deleteOne()`. -/
def Store.removeBlog (s : Store) (i : Oid) : Store :=
  { s with blogs := s.blogs.filter (fun x => x._id != i) }

/-! ## Responses -/

/-- An error a controller catches and hands to `next(err)`. -/
inductive Failure where
  | castError
  | validationError
  | duplicateKey
  | typeError
  | regexError
  deriving DecidableEq, Repr

/-- The fields `populate("author", "first_name last_name email")` selects. -/
structure AuthorInfo where
  _id : Oid
  first_name : Str
  last_name : Str
  email : Str
  deriving DecidableEq

/-- A blog whose `author` path went through `populate`: `none` when no user
has the id. -/
structure PopulatedBlog where
  blog : Blog
  author : Option AuthorInfo
  deriving DecidableEq

/-- The body of a listing response. -/
structure Page (α : Type) where
  docs : List α
  totalDocs : Nat
  limit : Nat
  page : JsNum
  totalPages : Nat
  hasNextPage : Bool
  hasPrevPage : Bool

/-- The user object of a signup response. -/
structure PublicUser where
  id : Oid
  first_name : Str
  last_name : Str
  email : Str
  bio : Option Str
  deriving DecidableEq

/-- A JSON response body. -/
inductive Body where
  | message (m : Str)
  | blog (b : Blog)
  | populated (b : PopulatedBlog)
  | page (p : Page PopulatedBlog)
  | ownPage (p : Page Blog)
  | auth (token : Str) (user : PublicUser)

/-- What a controller does with a request: it sends a response, or it forwards
an error to the error handler (`next(err)`). -/
inductive Outcome where
  | respond (status : Nat) (body : Body)
  | forwarded (e : Failure)

/-- The status a controller sent; `none` when it forwarded an error. -/
def Outcome.status? : Outcome → Option Nat
  | .respond st _ => some st
  | .forwarded _ => none

/-- The blog a response carries, if it carries one. -/
def Outcome.blog? : Outcome → Option Blog
  | .respond _ (.blog b) => some b
  | .respond _ (.populated p) => some p.blog
  | _ => none

/-! ## Saving a blog: the constraints of the schema -/

/-- The `required` validators of the schema: `title` (already trimmed by its
setter) and `body` must not be empty. -/
def Blog.valid (b : Blog) : Bool := !b.title.isEmpty && !b.body.isEmpty

/-- The unique index on `title`: another document holds the same title. -/
def Store.titleTaken (s : Store) (b : Blog) : Bool :=
  s.blogs.any (fun x => x._id != b._id && x.title == b.title)

/-- The call `blog.save()` on a document read from the store. -/
def Store.saveBlog (s : Store) (b : Blog) : Except Failure Store :=
  if !b.valid then .error .validationError
  else if s.titleTaken b then .error .duplicateKey
  else .ok (s.replaceBlog b)

/-- The call `blog.save()` on a new document, whose id comes from the
counter. -/
def Store.insertBlog (s : Store) (b : Blog) : Except Failure Store :=
  if !b.valid then .error .validationError
  else if s.titleTaken b then .error .duplicateKey
  else .ok { s with blogs := s.blogs ++ [b], nextId := s.nextId + 1 }

/-! ## createBlog -/

/-- The `tags` of a create request: an array, or one comma-separated string. -/
inductive TagsInput where
  | array (ts : List Str)
  | text (t : Str)

/-- The call `tags.split(",")`. -/
def splitComma (cur : Str) : Str → List Str
  | [] => [cur.reverse]
  | c :: cs =>
    if c = ',' then cur.reverse :: splitComma [] cs else splitComma (c :: cur) cs

/-- The body of a create request; a field is `none` when it is absent. -/
structure CreateReq where
  title : Option Str
  description : Option Str
  tags : Option TagsInput
  body : Option Str

/-- A string is falsy when it is absent or empty. -/
def falsy (x : Option Str) : Bool :=
  match x with
  | none => true
  | some t => t.isEmpty

/-- The tags `createBlog` passes to the document, after the trim setter of the
schema. -/
def createTags : Option TagsInput → List Str
  | none => []
  | some (.array ts) => ts.map jsTrim
  | some (.text t) => if t.isEmpty then [] else ((splitComma [] t).map jsTrim).map jsTrim

/-- The controller `createBlog`; `user` is `req.user._id`, `now` the clock. -/
def createBlog (s : Store) (user : Oid) (req : CreateReq) (now : Nat) : Outcome × Store :=
  if falsy req.title || falsy req.body then
    (.respond 400 (.message "title and body are required".toList), s)
  else
    let title := req.title.getD []
    let body := req.body.getD []
    match s.findBlogByTitle title with
    | some _ => (.respond 409 (.message "Blog title must be unique".toList), s)
    | none =>
      let textForReading := (if falsy req.description then [] else req.description.getD []) ++ [' '] ++ body
      let reading_time := calculateReadingTime (some textForReading)
      let blog : Blog :=
        { _id := s.nextId, title := jsTrim title, description := req.description.map jsTrim,
          author := user, state := .draft, read_count := 0, reading_time := reading_time,
          tags := createTags req.tags, body := body, timestamp := now }
      match s.insertBlog blog with
      | .error e => (.forwarded e, s)
      | .ok s' => (.respond 201 (.blog blog), s')

/-! ## updateBlog, publishBlog, deleteBlog -/

/-- The body of an update request, restricted to the paths of the schema, each
carrying a value of the type of its path; `none` is an absent property.
`author` and `state` arrive as strings and are cast and validated on save. -/
structure Updates where
  title : Option Str
  description : Option Str
  author : Option Str
  state : Option Str
  read_count : Option Nat
  reading_time : Option Nat
  tags : Option (List Str)
  body : Option Str
  timestamp : Option Nat

/-- The request body `{}`. -/
def Updates.none : Updates :=
  { title := .none, description := .none, author := .none, state := .none,
    read_count := .none, reading_time := .none, tags := .none, body := .none,
    timestamp := .none }

/-- The statement `Object.assign(blog, updates)` with the setters and casts of
the schema; `none` when a value cannot be cast or is outside the enum, which
`save()` reports as a validation error. -/
def applyUpdates (lib : Lib) (b : Blog) (u : Updates) : Option Blog :=
  let author? : Option Oid :=
    match u.author with
    | none => some b.author
    | some a => lib.castObjectId a
  let state? : Option BlogState :=
    match u.state with
    | none => some b.state
    | some st => BlogState.ofStr? st
  match author?, state? with
  | some author, some state =>
    some
      { _id := b._id,
        title := (u.title.map jsTrim).getD b.title,
        description := match u.description with
          | none => b.description
          | some d => some (jsTrim d),
        author := author,
        state := state,
        read_count := u.read_count.getD b.read_count,
        reading_time := u.reading_time.getD b.reading_time,
        tags := (u.tags.map (fun ts => ts.map jsTrim)).getD b.tags,
        body := u.body.getD b.body,
        timestamp := u.timestamp.getD b.timestamp }
  | _, _ => none

/-- The block of `updateBlog` that sets `updates.reading_time`. -/
def withReadingTime (b : Blog) (u : Updates) : Updates :=
  if !falsy u.body || !falsy u.description then
    let d : Option Str := match u.description with
      | none => b.description
      | some d => some d
    let textForReading :=
      (if falsy d then [] else d.getD []) ++ [' '] ++
        (match u.body with
          | none => b.body
          | some x => x)
    { u with reading_time := some (calculateReadingTime (some textForReading)) }
  else u

/-- The controller `updateBlog`; `user` is `req.user._id`, set by the
authentication middleware before the controller runs.  `Blog.findById(id)`
first casts `id` to an ObjectId and rejects with a CastError when the string is
none; the `catch` block hands that error to `next`.  A failing `save()` ends
there too. -/
def updateBlog (lib : Lib) (s : Store) (user : Oid) (id : Str) (updates : Updates) :
    Outcome × Store :=
  match lib.castObjectId id with
  | none => (.forwarded .castError, s)
  | some oid =>
    match s.findBlog oid with
    | none => (.respond 404 (.message "Blog not found".toList), s)
    | some blog =>
      if blog.author ≠ user then (.respond 403 (.message "Forbidden".toList), s)
      else if (!falsy updates.title && updates.title ≠ some blog.title) &&
          (s.findBlogByTitle (updates.title.getD [])).isSome then
        (.respond 409 (.message "Title already used".toList), s)
      else
        match applyUpdates lib blog (withReadingTime blog updates) with
        | none => (.forwarded .validationError, s)
        | some blog' =>
          match s.saveBlog blog' with
          | .error e => (.forwarded e, s)
          | .ok s' => (.respond 200 (.blog blog'), s')

/-- The controller `publishBlog`, with the same `findById` as `updateBlog`. -/
def publishBlog (lib : Lib) (s : Store) (user : Oid) (id : Str) : Outcome × Store :=
  match lib.castObjectId id with
  | none => (.forwarded .castError, s)
  | some oid =>
    match s.findBlog oid with
    | none => (.respond 404 (.message "Blog not found".toList), s)
    | some blog =>
      if blog.author ≠ user then (.respond 403 (.message "Forbidden".toList), s)
      else
        let blog' := { blog with state := .published }
        match s.saveBlog blog' with
        | .error e => (.forwarded e, s)
        | .ok s' => (.respond 200 (.blog blog'), s')

/-- The controller `deleteBlog`, with the same `findById` as `updateBlog`. -/
def deleteBlog (lib : Lib) (s : Store) (user : Oid) (id : Str) : Outcome × Store :=
  match lib.castObjectId id with
  | none => (.forwarded .castError, s)
  | some oid =>
    match s.findBlog oid with
    | none => (.respond 404 (.message "Blog not found".toList), s)
    | some blog =>
      if blog.author ≠ user then (.respond 403 (.message "Forbidden".toList), s)
      else (.respond 200 (.message "Deleted".toList), s.removeBlog blog._id)

/-! ## getBlog -/

/-- The update `{ $inc: { read_count: 1 } }` of `findByIdAndUpdate`. -/
def Store.incReadCount (s : Store) (i : Oid) : Store :=
  let bump : Blog → Blog := fun x =>
    if x._id = i then { x with read_count := x.read_count + 1 } else x
  { s with blogs := s.blogs.map bump }

/-- The call `populate("author", "first_name last_name email")`. -/
def Store.populate (s : Store) (b : Blog) : PopulatedBlog :=
  { blog := b,
    author := (s.findUser b.author).map
      (fun u => { _id := u._id, first_name := u.first_name, last_name := u.last_name,
                  email := u.email }) }

/-- The token of an `Authorization` header: what follows `"Bearer "`, and
`none` when the header does not start with it. -/
def bearerToken (authHeader : Str) : Option Str :=
  if "Bearer ".toList.isPrefixOf authHeader then some (authHeader.drop 7) else none

/-- The controller `getBlog`; `authorization` is `req.header("Authorization")`,
`none` when the request has no such header.  `findByIdAndUpdate` increments
the counter and returns the new document (`new: true`) before the state is
looked at.  `populate` leaves `null` in `author` when no user has the id, and
reading `blog.author._id` then throws a TypeError, which the `catch` block
forwards. -/
def getBlog (lib : Lib) (s : Store) (id : Str) (authorization : Option Str) :
    Outcome × Store :=
  match lib.castObjectId id with
  | none => (.respond 400 (.message "Invalid id".toList), s)
  | some oid =>
    match s.findBlog oid with
    | none => (.respond 404 (.message "Blog not found".toList), s)
    | some found =>
      let s' := s.incReadCount oid
      let blog := s'.populate { found with read_count := found.read_count + 1 }
      if blog.blog.state = .published then (.respond 200 (.populated blog), s')
      else
        let authHeader := if falsy authorization then [] else authorization.getD []
        let token := bearerToken authHeader
        if falsy token then (.respond 403 (.message "Forbidden".toList), s')
        else
          match lib.jwtVerify (token.getD []) with
          | none => (.respond 403 (.message "Forbidden".toList), s')
          | some decoded =>
            match blog.author with
            | none => (.forwarded .typeError, s')
            | some author =>
              if decoded.id ≠ some (lib.oidToString author._id) then
                (.respond 403 (.message "Forbidden".toList), s')
              else (.respond 200 (.populated blog), s')

/-! ## Listings -/

/-- The constant `allowedSortFields`. -/
def allowedSortFields : List Str :=
  ["read_count".toList, "reading_time".toList, "timestamp".toList]

/-- The call `sort.replace("-", "")`: the first `"-"` of the string is removed,
wherever it stands. -/
def removeFirstDash : Str → Str
  | [] => []
  | c :: cs => if c = '-' then cs else c :: removeFirstDash cs

/-- A sort specification `{ [field]: order }`, `order` being `1` or `-1`. -/
structure SortQuery where
  field : Str
  order : Int
  deriving DecidableEq

/-- The block of `listBlogs` and `myBlogs` that builds `sortQuery`. -/
def buildSort (sort : Option Str) : SortQuery :=
  let dflt : SortQuery := { field := "timestamp".toList, order := -1 }
  if falsy sort then dflt
  else
    let sort := sort.getD []
    let field := removeFirstDash sort
    let order : Int := if "-".toList.isPrefixOf sort then -1 else 1
    if allowedSortFields.contains field then { field := field, order := order } else dflt

/-- The value a blog is sorted by; the three allowed fields are numbers. -/
def Blog.sortKey (b : Blog) (field : Str) : Nat :=
  if field = "read_count".toList then b.read_count
  else if field = "reading_time".toList then b.reading_time
  else b.timestamp

/-- The cursor method `sort(sortQuery)`: ascending for order `1`, descending
otherwise.  Documents with equal keys keep their order. -/
def sortBlogs (q : SortQuery) (l : List Blog) : List Blog :=
  if q.order = 1 then
    l.insertionSort (fun a b => a.sortKey q.field ≤ b.sortKey q.field)
  else
    l.insertionSort (fun a b => b.sortKey q.field ≤ a.sortKey q.field)

/-- A number the store accepts for `skip` and `limit`: a finite integer that
is not negative. -/
def JsNum.toNat? : JsNum → Option Nat
  | .fin q => if q.den = 1 ∧ 0 ≤ q.num then some q.num.toNat else none
  | _ => none

/-- The comparison `x < y`, false as soon as one side is `NaN`. -/
def JsNum.lt : JsNum → JsNum → Bool
  | .nan, _ => false
  | _, .nan => false
  | .posInf, _ => false
  | _, .negInf => false
  | .negInf, _ => true
  | .fin _, .posInf => true
  | .fin a, .fin b => decide (a < b)

/-- The filter object a listing hands to `Blog.find` and `countDocuments`. -/
structure Filter where
  state : Option Str
  author : Option Oid
  /-- The pattern of `{ $regex: title, $options: "i" }`. -/
  title : Option Str
  /-- The list of `{ $in: t }`. -/
  tags : Option (List Str)
  /-- The `$or` of a free-text query: the pattern and the ids of the users it
  matches. -/
  search : Option (Str × List Oid)

/-- Whether a document satisfies a filter: every constraint present must
hold. -/
def Filter.matches (lib : Lib) (f : Filter) (b : Blog) : Bool :=
  (match f.state with
    | none => true
    | some st => b.state.toStr == st) &&
  (match f.author with
    | none => true
    | some a => b.author == a) &&
  (match f.title with
    | none => true
    | some pat => lib.regexTest pat b.title) &&
  (match f.tags with
    | none => true
    | some ts => b.tags.any (fun t => ts.contains t)) &&
  (match f.search with
    | none => true
    | some (pat, ids) =>
      lib.regexTest pat b.title || b.tags.any (fun t => lib.regexTest pat t) ||
        ids.contains b.author)

/-- The query string of `GET /blogs` and `GET /blogs/me/list`.  `page` and
`limit` are given as for `paginate`; the other parameters are strings, `none`
when absent. -/
structure ListQuery where
  page : Option JsNum
  limit : Option JsNum
  state : Option Str
  q : Option Str
  author : Option Str
  title : Option Str
  tags : Option Str
  sort : Option Str

/-- The part of `listBlogs` that builds `filter`. -/
def listFilter (lib : Lib) (s : Store) (query : ListQuery) : Filter :=
  { state := if falsy query.state then some "published".toList else query.state,
    author := if falsy query.author then none else lib.castObjectId (query.author.getD []),
    title := if falsy query.title then none else query.title,
    tags := if falsy query.tags then none
      else some ((splitComma [] (query.tags.getD [])).map jsTrim),
    search := if falsy query.q then none
      else
        let pat := query.q.getD []
        let matchingUsers := s.users.filter (fun u =>
          lib.regexTest pat u.first_name || lib.regexTest pat u.last_name ||
            lib.regexTest pat u.email)
        some (pat, matchingUsers.map (fun u => u._id)) }

/-- The part of `myBlogs` that builds `filter`. -/
def myFilter (user : Oid) (query : ListQuery) : Filter :=
  { state := if falsy query.state then none else query.state,
    author := some user,
    title := none,
    tags := none,
    search := none }

/-- The page of documents and the counters of a listing response, `none` when
the store refuses `skip` or `limit`. -/
def pageOf {α : Type} (view : Blog → α) (matching : List Blog) (sortQuery : SortQuery)
    (pg : Pagination) : Option (Page α) :=
  match pg.skip.toNat?, pg.limit.toNat? with
  | some skip, some lim =>
    let totalDocs := matching.length
    let totalPages := (totalDocs + lim - 1) / lim
    some
      { docs := (((sortBlogs sortQuery matching).drop skip).take lim).map view,
        totalDocs := totalDocs,
        limit := lim,
        page := pg.page,
        totalPages := totalPages,
        hasNextPage := pg.page.lt (.fin totalPages),
        hasPrevPage := (JsNum.fin 1).lt pg.page }
  | _, _ => none

/-- The controller `listBlogs`.  It only reads the store. -/
def listBlogs (lib : Lib) (s : Store) (query : ListQuery) : Outcome :=
  let pg := paginate query.page query.limit
  let filter := listFilter lib s query
  if !falsy query.q && !lib.regexCompiles (query.q.getD []) then .forwarded .regexError
  else if !falsy query.title && !lib.regexCompiles (query.title.getD []) then
    .forwarded .regexError
  else
    match pageOf s.populate (s.blogs.filter (filter.matches lib)) (buildSort query.sort) pg with
    | none => .forwarded .castError
    | some p => .respond 200 (.page p)

/-- The controller `myBlogs`; `user` is `req.user._id`. -/
def myBlogs (lib : Lib) (s : Store) (user : Oid) (query : ListQuery) : Outcome :=
  let pg := paginate query.page query.limit
  let filter := myFilter user query
  match pageOf id (s.blogs.filter (filter.matches lib)) (buildSort query.sort) pg with
  | none => .forwarded .castError
  | some p => .respond 200 (.ownPage p)

/-! ## signup -/

/-- The body of a signup request. -/
structure SignupReq where
  first_name : Option Str
  last_name : Option Str
  email : Option Str
  password : Option Str
  bio : Option Str

/-- The function `signToken`. -/
def signToken (lib : Lib) (user : User) : Str :=
  lib.jwtSign { id := some (lib.oidToString user._id), email := some user.email }

/-- The controller `signup` of `controllers/authController.js`. -/
def signup (lib : Lib) (s : Store) (req : SignupReq) : Outcome × Store :=
  if falsy req.first_name || falsy req.last_name || falsy req.email || falsy req.password then
    (.respond 400 (.message "Missing required fields".toList), s)
  else
    let email := req.email.getD []
    match s.findUserByEmail email with
    | some _ => (.respond 409 (.message "Email already registered".toList), s)
    | none =>
      let hashedPassword := lib.bcryptHash (req.password.getD [])
      let user : User :=
        { _id := s.nextId, first_name := req.first_name.getD [],
          last_name := req.last_name.getD [], email := email,
          password := hashedPassword, bio := req.bio }
      let s' := { s with users := s.users ++ [user], nextId := s.nextId + 1 }
      (.respond 201 (.auth (signToken lib user)
        { id := user._id, first_name := user.first_name, last_name := user.last_name,
          email := user.email, bio := user.bio }), s')

/-! ## Sequences of requests -/

/-- A request to one of the blog routes that can change the store. -/
inductive Op where
  | createBlog (user : Oid) (req : CreateReq) (now : Nat)
  | updateBlog (user : Oid) (id : Str) (updates : Updates)
  | publishBlog (user : Oid) (id : Str)
  | deleteBlog (user : Oid) (id : Str)
  | getBlog (id : Str) (authorization : Option Str)

/-- The store after one request. -/
def step (lib : Lib) (s : Store) : Op → Store
  | .createBlog user req now => (createBlog s user req now).2
  | .updateBlog user id updates => (updateBlog lib s user id updates).2
  | .publishBlog user id => (publishBlog lib s user id).2
  | .deleteBlog user id => (deleteBlog lib s user id).2
  | .getBlog id authorization => (getBlog lib s id authorization).2

/-- The store after a sequence of requests, served one after the other. -/
def run (lib : Lib) (s : Store) (ops : List Op) : Store := ops.foldl (step lib) s

/-! ## A concrete instance of the libraries -/

/-- The value of a hexadecimal digit. -/
def hexVal (c : Char) : Option Nat :=
  let n := c.toNat
  if 48 ≤ n ∧ n ≤ 57 then some (n - 48)
  else if 97 ≤ n ∧ n ≤ 102 then some (n - 87)
  else if 65 ≤ n ∧ n ≤ 70 then some (n - 55)
  else none

/-- Reading hexadecimal digits, most significant first. -/
def readHex (acc : Nat) : Str → Option Nat
  | [] => some acc
  | c :: cs =>
    match hexVal c with
    | none => none
    | some d => readHex (16 * acc + d) cs

/-- The lower-case hexadecimal digit of a value below 16. -/
def hexDigit (d : Nat) : Char :=
  if d < 10 then Char.ofNat (48 + d) else Char.ofNat (87 + d)

/-- The `k` low hexadecimal digits of a number, most significant first. -/
def hexString : Nat → Nat → Str
  | 0, _ => []
  | k + 1, n => hexString k (n / 16) ++ [hexDigit (n % 16)]

/-- An instance of the libraries: an ObjectId is written with 24 hexadecimal
digits, a token is the letter `j` followed by the id it embeds, a pattern
matches a subject that starts with it. -/
def Lib.sample : Lib :=
  { castObjectId := fun t => if t.length = 24 then readHex 0 t else none,
    oidToString := hexString 24,
    jwtVerify := fun t =>
      match t with
      | 'j' :: rest => some { id := some rest, email := none }
      | _ => none,
    jwtSign := fun p => 'j' :: p.id.getD [],
    bcryptHash := fun t => 'h' :: t,
    regexCompiles := fun pat => !pat.contains '(',
    regexTest := fun pat subject => pat.isPrefixOf subject }

/-- A user of the sample store. -/
def sampleUser : User :=
  { _id := 0, first_name := "Alice".toList, last_name := "Smith".toList,
    email := "alice@example.com".toList, password := "hpassword123".toList, bio := none }

/-- A draft of `sampleUser`. -/
def sampleDraft : Blog :=
  { _id := 1, title := "First Post".toList, description := some "A test post".toList,
    author := 0, state := .draft, read_count := 0, reading_time := 1,
    tags := ["test".toList, "first".toList], body := "Hello world".toList, timestamp := 100 }

/-- A published blog of `sampleUser`. -/
def samplePublished : Blog :=
  { _id := 2, title := "Second Post".toList, description := none,
    author := 0, state := .published, read_count := 4, reading_time := 1,
    tags := [], body := "Out in the open".toList, timestamp := 200 }

/-- A store with one user, one draft and one published blog. -/
def sampleStore : Store :=
  { users := [sampleUser], blogs := [sampleDraft, samplePublished], nextId := 3 }

/-- The id of `sampleDraft` as it appears in a path. -/
def sampleDraftId : Str := "000000000000000000000001".toList

/-- The id of `samplePublished` as it appears in a path. -/
def samplePublishedId : Str := "000000000000000000000002".toList

/-- The text made of `n` copies of a string. -/
def repeatStr : Nat → Str → Str
  | 0, _ => []
  | n + 1, t => t ++ repeatStr n t

/-- A create request whose description has 200 words and whose body has one. -/
def longDescriptionReq : CreateReq :=
  { title := some "Long".toList, description := some (repeatStr 200 "w ".toList),
    tags := none, body := some "b".toList }

/-- The request body `{ "description": "" }`. -/
def emptyDescription : Updates := { Updates.none with description := some [] }

/-- The request body `{ "state": "draft" }`. -/
def backToDraft : Updates := { Updates.none with state := some "draft".toList }

/-- Whether an operation is an update whose request body has `state: "draft"`. -/
def Op.setsDraft : Op → Bool
  | .updateBlog _ _ updates => updates.state == some "draft".toList
  | _ => false

/-- Every blog of the store got its id from the counter. -/
def Store.idsBelowCounter (s : Store) : Prop := ∀ b ∈ s.blogs, b._id < s.nextId

/-- The invariant behind the one-way state: ids come from the counter, the id
`i` has already been handed out, and the blog with id `i`, if there is one, is
published. -/
def Store.publishedAt (s : Store) (i : Oid) : Prop :=
  s.idsBelowCounter ∧ i < s.nextId ∧ ∀ b, s.findBlog i = some b → b.state = .published

/-- The ids of the documents of a listing response, in the order they are
sent. -/
def Outcome.docIds : Outcome → Option (List Oid)
  | .respond _ (.page p) => some (p.docs.map (fun d => d.blog._id))
  | .respond _ (.ownPage p) => some (p.docs.map (fun d => d._id))
  | _ => none

/-- A query string with nothing but a `sort` parameter. -/
def sortOnly (sort : Option Str) : ListQuery :=
  { page := none, limit := none, state := none, q := none, author := none,
    title := none, tags := none, sort := sort }

/-- The sample store after its owner published the draft: two published blogs. -/
def samplePublishedStore : Store := (publishBlog Lib.sample sampleStore 0 sampleDraftId).2

/-! # Theorems

## Reading time -/

/-- The non-empty pieces of `split(/\s+/)` are as many as the word starts: from
an empty current piece the count is that of a text start, from a piece in
progress it is one more than the starts after a non-space. -/
theorem count_splitSpaces (t : Str) :
    (∀ b, ((splitSpaces b [] t).filter (fun w => !w.isEmpty)).length = wordStarts true t) ∧
    (∀ cur, cur ≠ [] →
      ((splitSpaces false cur t).filter (fun w => !w.isEmpty)).length
        = 1 + wordStarts false t) := by
  induction t with
  | nil =>
    constructor
    · intro b; simp [splitSpaces, wordStarts]
    · intro cur hcur
      cases cur with
      | nil => exact absurd rfl hcur
      | cons a l => simp [splitSpaces, wordStarts, List.isEmpty_iff]
  | cons c cs ih =>
    obtain ⟨ih1, ih2⟩ := ih
    constructor
    · intro b
      by_cases hc : isJsSpace c = true
      · cases b <;> simp [splitSpaces, wordStarts, hc, ih1]
      · simp only [Bool.not_eq_true] at hc
        simp [splitSpaces, wordStarts, hc, ih2]
    · intro cur hcur
      by_cases hc : isJsSpace c = true
      · cases cur with
        | nil => exact absurd rfl hcur
        | cons a l =>
          simp [splitSpaces, wordStarts, hc, ih1, List.isEmpty_iff]
          omega
      · simp only [Bool.not_eq_true] at hc
        simp [splitSpaces, wordStarts, hc, ih2]

/-- Leading white space starts no word. -/
theorem wordStarts_dropWhile (t : Str) :
    wordStarts true (t.dropWhile isJsSpace) = wordStarts true t := by
  induction t with
  | nil => rfl
  | cons c cs ih =>
    by_cases hc : isJsSpace c = true
    · simp [List.dropWhile, hc, wordStarts, ih]
    · simp only [Bool.not_eq_true] at hc
      simp [List.dropWhile, hc]

/-- Trailing white space starts no word. -/
theorem wordStarts_append_spaces (l sp : Str) (h : ∀ c ∈ sp, isJsSpace c = true) (b : Bool) :
    wordStarts b (l ++ sp) = wordStarts b l := by
  induction l generalizing b with
  | nil =>
    induction sp generalizing b with
    | nil => rfl
    | cons c cs ih =>
      have hc : isJsSpace c = true := h c (List.mem_cons_self _ _)
      have := ih (fun x hx => h x (List.mem_cons_of_mem _ hx)) true
      simp only [List.nil_append] at this
      simp [wordStarts, hc, this]
  | cons c cs ih => simp [wordStarts, ih]

/-- Trimming keeps the number of words. -/
theorem wordStarts_jsTrim (t : Str) : wordStarts true (jsTrim t) = wordStarts true t := by
  unfold jsTrim
  rw [← wordStarts_dropWhile t]
  generalize t.dropWhile isJsSpace = u
  have hu : u = (u.reverse.dropWhile isJsSpace).reverse ++ (u.reverse.takeWhile isJsSpace).reverse := by
    rw [← List.reverse_append, List.takeWhile_append_dropWhile, List.reverse_reverse]
  conv_rhs => rw [hu]
  rw [wordStarts_append_spaces]
  intro c hc
  rw [List.mem_reverse] at hc
  exact List.mem_takeWhile_imp hc

/-- The count the code computes is the spec's word count. -/
theorem countWords_eq_wordCount (t : Str) : countWords t = wordCount t := by
  unfold countWords jsSplitSpaces wordCount
  rw [(count_splitSpaces (jsTrim t)).1 false, wordStarts_jsTrim]

/-- The rounded-up quotient by 200, computed on natural numbers. -/
theorem ceil_div_200 (n : Nat) : ⌈(n : ℚ) / 200⌉₊ = (n + 199) / 200 := by
  apply le_antisymm
  · rw [Nat.ceil_le, div_le_iff₀ (by norm_num)]
    have h : n ≤ (n + 199) / 200 * 200 := by omega
    exact_mod_cast h
  · rcases Nat.eq_zero_or_pos ((n + 199) / 200) with h | h
    · rw [h]; exact Nat.zero_le _
    · have h2 : (n + 199) / 200 - 1 < ⌈(n : ℚ) / 200⌉₊ := by
        rw [Nat.lt_ceil, lt_div_iff₀ (by norm_num)]
        have h3 : ((n + 199) / 200 - 1) * 200 < n := by omega
        exact_mod_cast h3
      omega

/-- C6: `calculateReadingTime` returns at least 1 on every text, absent and
empty included; on a text with at least one word (a maximal run of characters
that are not white space) it returns the word count divided by 200 and rounded
up, so 200 words give 1 and 201 words give 2. -/
theorem calculateReadingTime_spec (text : Option Str) :
    1 ≤ calculateReadingTime text ∧
    (∀ t, text = some t → 0 < wordCount t →
      calculateReadingTime text = ⌈(wordCount t : ℚ) / 200⌉₊) ∧
    (∀ t, text = some t → wordCount t = 200 → calculateReadingTime text = 1) ∧
    (∀ t, text = some t → wordCount t = 201 → calculateReadingTime text = 2) := by
  have key : ∀ t : Str, 0 < wordCount t →
      calculateReadingTime (some t) = (wordCount t + 199) / 200 := by
    intro t ht
    have hne : t.isEmpty = false := by
      cases t with
      | nil => simp [wordCount, wordStarts] at ht
      | cons a l => rfl
    simp only [calculateReadingTime, hne, countWords_eq_wordCount]
    have : (wordCount t + 199) / 200 ≠ 0 := by omega
    simp [this]
  refine ⟨?_, ?_, ?_, ?_⟩
  · cases text with
    | none => simp [calculateReadingTime]
    | some t =>
      simp only [calculateReadingTime]
      split
      · exact Nat.le_refl 1
      · split <;> omega
  · intro t ht hw
    subst ht
    rw [key t hw, ceil_div_200]
  · intro t ht hw
    subst ht
    rw [key t (by omega), hw]
  · intro t ht hw
    subst ht
    rw [key t (by omega), hw]

theorem calculateReadingTime_spec_witness :
    0 < wordCount "hello  brave new world ".toList ∧
    calculateReadingTime (some "hello  brave new world ".toList)
      = ⌈(wordCount "hello  brave new world ".toList : ℚ) / 200⌉₊ :=
  ⟨by decide, (calculateReadingTime_spec (some "hello  brave new world ".toList)).2.1 _ rfl
    (by decide)⟩

/-! ## Pagination -/

/-- The normalised page and limit are at least 1 on every input, and the skip
is `(page - 1) * limit`; the skip is at least 0 except when the page is 1 and
the limit is `+Infinity`, where it is `NaN`. -/
theorem paginate_bounds (page limit : Option JsNum) :
    (paginate page limit).page.ge (.fin 1) = true ∧
    (paginate page limit).limit.ge (.fin 1) = true ∧
    (paginate page limit).skip
      = (paginate page limit).page.subOne.mul (paginate page limit).limit ∧
    ((paginate page limit).skip.ge (.fin 0) = true ∨
      ((paginate page limit).page = .fin 1 ∧ (paginate page limit).limit = .posInf ∧
        (paginate page limit).skip = .nan)) := by
  have norm : ∀ (x : JsNum) (d : ℚ), 1 ≤ d →
      (x.orElse (.fin d)).maxOne = .posInf ∨
        ∃ q : ℚ, 1 ≤ q ∧ (x.orElse (.fin d)).maxOne = .fin q := by
    intro x d hd
    cases x with
    | nan => right; exact ⟨max d 1, le_max_right _ _, by simp [JsNum.orElse, JsNum.truthy, JsNum.maxOne]⟩
    | posInf => left; simp [JsNum.orElse, JsNum.truthy, JsNum.maxOne]
    | negInf => right; exact ⟨1, le_refl _, by simp [JsNum.orElse, JsNum.truthy, JsNum.maxOne]⟩
    | fin q =>
      right
      by_cases hq : q = 0
      · exact ⟨max d 1, le_max_right _ _, by simp [JsNum.orElse, JsNum.truthy, JsNum.maxOne, hq]⟩
      · exact ⟨max q 1, le_max_right _ _, by simp [JsNum.orElse, JsNum.truthy, JsNum.maxOne, hq]⟩
  have hp := norm (page.getD (.fin 1)) 1 (le_refl _)
  have hl := norm (limit.getD (.fin 20)) 20 (by norm_num)
  simp only [paginate]
  rcases hp with hp | ⟨p, hp1, hp⟩ <;> rcases hl with hl | ⟨l, hl1, hl⟩ <;> rw [hp, hl]
  · simp [JsNum.ge, JsNum.subOne, JsNum.mul, JsNum.sign]
  · have hl0 : ¬ l < 0 := by linarith
    have hl0' : l ≠ 0 := by linarith
    simp [JsNum.ge, JsNum.subOne, JsNum.mul, JsNum.sign, hl1, hl0, hl0']
  · by_cases hp0 : p = 1
    · subst hp0
      simp [JsNum.ge, JsNum.subOne, JsNum.mul, JsNum.sign]
    · have h1 : ¬ p - 1 < 0 := by linarith
      have h2 : p - 1 ≠ 0 := fun h => hp0 (by linarith)
      simp [JsNum.ge, JsNum.subOne, JsNum.mul, JsNum.sign, hp1, h1, h2]
  · have : 0 ≤ (p - 1) * l := mul_nonneg (by linarith) (by linarith)
    simp [JsNum.ge, JsNum.subOne, JsNum.mul, hp1, hl1, this]

/-- C7: with no page and a limit that coerces to `+Infinity` (the query
`?limit=Infinity`), `paginate` returns page 1, limit `+Infinity` and the skip
`0 * Infinity`, which is `NaN`: the skip is not at least 0 and is not equal to
any number. -/
theorem paginate_infinite_limit :
    paginate none (some .posInf) = { skip := .nan, limit := .posInf, page := .fin 1 } ∧
    (paginate none (some .posInf)).skip.ge (.fin 0) = false ∧
    (paginate none (some .posInf)).skip.strictEq
      ((paginate none (some .posInf)).page.subOne.mul (paginate none (some .posInf)).limit)
      = false := by
  have h : paginate none (some .posInf)
      = { skip := .nan, limit := .posInf, page := .fin 1 } := by
    simp [paginate, JsNum.orElse, JsNum.truthy, JsNum.maxOne, JsNum.subOne, JsNum.mul,
      JsNum.sign]
  rw [h]
  simp [JsNum.ge, JsNum.strictEq]

/-! ## Fetching one blog -/

/-- A blog found by id has that id. -/
theorem findBlog_id {s : Store} {i : Oid} {b : Blog} (h : s.findBlog i = some b) :
    b._id = i := by
  have := List.find?_some h
  simpa using this

/-- A blog found by id is in the collection. -/
theorem findBlog_mem {s : Store} {i : Oid} {b : Blog} (h : s.findBlog i = some b) :
    b ∈ s.blogs := List.mem_of_find?_eq_some h

/-- C2: an anonymous fetch of a fresh draft is rejected with 403 and yet
leaves the stored read_count at 1 instead of 0; after the owner publishes, the
first public fetch returns read_count 2 and the second returns 3. -/
theorem getBlog_rejected_fetch_counts :
    (sampleStore.findBlog 1).map (fun b => (b.state, b.read_count)) = some (.draft, 0) ∧
    (getBlog Lib.sample sampleStore sampleDraftId none).1.status? = some 403 ∧
    ((getBlog Lib.sample sampleStore sampleDraftId none).2.findBlog 1).map
      (fun b => b.read_count) = some 1 ∧
    (publishBlog Lib.sample (getBlog Lib.sample sampleStore sampleDraftId none).2 0
      sampleDraftId).1.status? = some 200 ∧
    ((getBlog Lib.sample
      (publishBlog Lib.sample (getBlog Lib.sample sampleStore sampleDraftId none).2 0
        sampleDraftId).2 sampleDraftId none).1.blog?).map (fun b => b.read_count) = some 2 ∧
    ((getBlog Lib.sample
      (getBlog Lib.sample
        (publishBlog Lib.sample (getBlog Lib.sample sampleStore sampleDraftId none).2 0
          sampleDraftId).2 sampleDraftId none).2 sampleDraftId none).1.blog?).map
      (fun b => b.read_count) = some 3 := by
  decide

/-- C4 as stated fails on an id that is no ObjectId: no blog has the id `abc`,
and `updateBlog`, `publishBlog` and `deleteBlog` forward the cast error of
`findById` to the error handler instead of answering 404. -/
theorem mutation_malformed_id_not_404 :
    ¬ (∀ (lib : Lib) (s : Store) (user : Oid) (id : Str) (updates : Updates),
        (∀ b ∈ s.blogs, lib.oidToString b._id ≠ id) →
        (updateBlog lib s user id updates).1.status? = some 404 ∧
        (publishBlog lib s user id).1.status? = some 404 ∧
        (deleteBlog lib s user id).1.status? = some 404) := by
  intro h
  have h1 := (h Lib.sample sampleStore 0 "abc".toList Updates.none (by decide)).1
  revert h1
  decide

/-- C4, amended: for `updateBlog`, `publishBlog` and `deleteBlog` and every
requester and every id that casts to an ObjectId: when no blog has the id the
response is 404, whoever asks; when the blog exists and its author is not the
requester the response is 403 and the store is exactly as before; and the
request is answered 200 or changes the store only when the blog exists and its
author is the requester. -/
theorem mutation_guards (lib : Lib) (s : Store) (user : Oid) (id : Str) (oid : Oid)
    (updates : Updates) (hid : lib.castObjectId id = some oid) :
    (s.findBlog oid = none →
      ((updateBlog lib s user id updates).1.status? = some 404 ∧
        (updateBlog lib s user id updates).2 = s) ∧
      ((publishBlog lib s user id).1.status? = some 404 ∧
        (publishBlog lib s user id).2 = s) ∧
      ((deleteBlog lib s user id).1.status? = some 404 ∧
        (deleteBlog lib s user id).2 = s)) ∧
    (∀ b, s.findBlog oid = some b → b.author ≠ user →
      ((updateBlog lib s user id updates).1.status? = some 403 ∧
        (updateBlog lib s user id updates).2 = s) ∧
      ((publishBlog lib s user id).1.status? = some 403 ∧
        (publishBlog lib s user id).2 = s) ∧
      ((deleteBlog lib s user id).1.status? = some 403 ∧
        (deleteBlog lib s user id).2 = s)) ∧
    (((updateBlog lib s user id updates).1.status? = some 200 ∨
        (updateBlog lib s user id updates).2 ≠ s) →
      ∃ b, s.findBlog oid = some b ∧ b.author = user) ∧
    (((publishBlog lib s user id).1.status? = some 200 ∨
        (publishBlog lib s user id).2 ≠ s) →
      ∃ b, s.findBlog oid = some b ∧ b.author = user) ∧
    (((deleteBlog lib s user id).1.status? = some 200 ∨
        (deleteBlog lib s user id).2 ≠ s) →
      ∃ b, s.findBlog oid = some b ∧ b.author = user) := by
  have hnone : s.findBlog oid = none →
      ((updateBlog lib s user id updates).1.status? = some 404 ∧
        (updateBlog lib s user id updates).2 = s) ∧
      ((publishBlog lib s user id).1.status? = some 404 ∧
        (publishBlog lib s user id).2 = s) ∧
      ((deleteBlog lib s user id).1.status? = some 404 ∧
        (deleteBlog lib s user id).2 = s) := by
    intro hb
    simp [updateBlog, publishBlog, deleteBlog, hid, hb, Outcome.status?]
  have hforb : ∀ b, s.findBlog oid = some b → b.author ≠ user →
      ((updateBlog lib s user id updates).1.status? = some 403 ∧
        (updateBlog lib s user id updates).2 = s) ∧
      ((publishBlog lib s user id).1.status? = some 403 ∧
        (publishBlog lib s user id).2 = s) ∧
      ((deleteBlog lib s user id).1.status? = some 403 ∧
        (deleteBlog lib s user id).2 = s) := by
    intro b hb hne
    simp [updateBlog, publishBlog, deleteBlog, hid, hb, hne, Outcome.status?]
  have heff : ∀ r : Outcome × Store,
      (s.findBlog oid = none → r.1.status? = some 404 ∧ r.2 = s) →
      (∀ b, s.findBlog oid = some b → b.author ≠ user → r.1.status? = some 403 ∧ r.2 = s) →
      (r.1.status? = some 200 ∨ r.2 ≠ s) →
      ∃ b, s.findBlog oid = some b ∧ b.author = user := by
    intro r h404 h403 heffect
    cases hb : s.findBlog oid with
    | none =>
      obtain ⟨h1, h2⟩ := h404 hb
      rcases heffect with h | h
      · rw [h1] at h; exact absurd h (by decide)
      · exact absurd h2 h
    | some b =>
      by_cases hau : b.author = user
      · exact ⟨b, rfl, hau⟩
      · obtain ⟨h1, h2⟩ := h403 b hb hau
        rcases heffect with h | h
        · rw [h1] at h; exact absurd h (by decide)
        · exact absurd h2 h
  refine ⟨hnone, hforb, ?_, ?_, ?_⟩
  · exact heff _ (fun h => (hnone h).1) (fun b hb hne => (hforb b hb hne).1)
  · exact heff _ (fun h => (hnone h).2.1) (fun b hb hne => (hforb b hb hne).2.1)
  · exact heff _ (fun h => (hnone h).2.2) (fun b hb hne => (hforb b hb hne).2.2)

theorem mutation_guards_witness :
    Lib.sample.castObjectId sampleDraftId = some 1 ∧
    sampleStore.findBlog 1 = some sampleDraft ∧ sampleDraft.author ≠ 9 ∧
    ((deleteBlog Lib.sample sampleStore 9 sampleDraftId).1.status? = some 403 ∧
      (deleteBlog Lib.sample sampleStore 9 sampleDraftId).2 = sampleStore) :=
  ⟨by decide, by decide, by decide,
    ((mutation_guards Lib.sample sampleStore 9 sampleDraftId 1 Updates.none
      (by decide)).2.1 sampleDraft (by decide) (by decide)).2.2⟩

/-! ## Listings -/

/-- Sorting adds no document. -/
theorem mem_sortBlogs {q : SortQuery} {l : List Blog} {b : Blog} (h : b ∈ sortBlogs q l) :
    b ∈ l := by
  unfold sortBlogs at h
  split at h
  · exact (List.mem_insertionSort _).1 h
  · exact (List.mem_insertionSort _).1 h

/-- A page counts the matching documents and shows views of some of them. -/
theorem pageOf_docs {α : Type} (view : Blog → α) (matching : List Blog) (sq : SortQuery)
    (pg : Pagination) (p : Page α) (h : pageOf view matching sq pg = some p) :
    p.totalDocs = matching.length ∧ ∀ d ∈ p.docs, ∃ b ∈ matching, d = view b := by
  unfold pageOf at h
  split at h
  · next skip lim _ _ =>
    simp only [Option.some.injEq] at h
    subst h
    refine ⟨rfl, ?_⟩
    intro d hd
    simp only [List.mem_map] at hd
    obtain ⟨b, hb, rfl⟩ := hd
    exact ⟨b, mem_sortBlogs (List.mem_of_mem_drop (List.mem_of_mem_take hb)), rfl⟩
  · exact Option.noConfusion h

/-- A document matching a filter with a state constraint has that state. -/
theorem matches_state {lib : Lib} {f : Filter} {b : Blog} {st : Str}
    (hst : f.state = some st) (h : f.matches lib b = true) : b.state.toStr = st := by
  unfold Filter.matches at h
  rw [hst] at h
  simp only [Bool.and_eq_true, beq_iff_eq] at h
  exact h.1.1.1.1

/-- Only the published state is stored as `published`. -/
theorem toStr_published {st : BlogState} (h : st.toStr = "published".toList) :
    st = .published := by
  cases st with
  | draft => exact absurd h (by decide)
  | published => rfl

/-- C5: in `listBlogs`, when the query has no `state` (absent or empty) the
filter has state `published`, whatever the other parameters are: every
document matching it is published, so in every page the controller answers all
documents are published and `totalDocs` counts published documents only; with
the defaults for page and limit and no pattern a page is answered.  When a
`state` is given the filter's state is exactly that value.  In `myBlogs` the
filter's author is the requester, and it has a state constraint exactly when a
`state` is given, which is then that value. -/
theorem listing_filters (lib : Lib) (s : Store) (user : Oid) (query : ListQuery) :
    (falsy query.state = true →
      (listFilter lib s query).state = some "published".toList ∧
      (∀ b, (listFilter lib s query).matches lib b = true → b.state = .published) ∧
      (∀ p, listBlogs lib s query = .respond 200 (.page p) →
        (∀ d ∈ p.docs, d.blog.state = .published) ∧
        p.totalDocs = ((s.blogs.filter (fun b => b.state = .published)).filter
          ((listFilter lib s query).matches lib)).length) ∧
      (query.page = none → query.limit = none → query.q = none → query.title = none →
        ∃ p, listBlogs lib s query = .respond 200 (.page p))) ∧
    (falsy query.state = false → (listFilter lib s query).state = query.state) ∧
    (myFilter user query).author = some user ∧
    (falsy query.state = true → (myFilter user query).state = none) ∧
    (falsy query.state = false → (myFilter user query).state = query.state) := by
  refine ⟨?_, ?_, rfl, ?_, ?_⟩
  · intro hst
    have hf : (listFilter lib s query).state = some "published".toList := by
      simp [listFilter, hst]
    have hm : ∀ b, (listFilter lib s query).matches lib b = true → b.state = .published :=
      fun b hb => toStr_published (matches_state hf hb)
    refine ⟨hf, hm, ?_, ?_⟩
    · intro p hp
      unfold listBlogs at hp
      simp only at hp
      split at hp
      · exact Outcome.noConfusion hp
      · split at hp
        · exact Outcome.noConfusion hp
        · split at hp
          · exact Outcome.noConfusion hp
          · next p2 hp2 =>
            have hpp : p2 = p := by
              injection hp with _ hbody
              injection hbody
            subst hpp
            obtain ⟨htot, hdocs⟩ := pageOf_docs _ _ _ _ _ hp2
            constructor
            · intro d hd
              obtain ⟨b, hb, rfl⟩ := hdocs d hd
              exact hm b (List.mem_filter.1 hb).2
            · rw [htot]
              congr 1
              rw [List.filter_filter]
              apply List.filter_congr
              intro b _
              by_cases hb : (listFilter lib s query).matches lib b = true
              · simp [hb, hm b hb]
              · simp [hb]
    · intro hpage hlimit hq htitle
      have hpg : paginate none none = { skip := .fin 0, limit := .fin 20, page := .fin 1 } := by
        simp [paginate, JsNum.orElse, JsNum.truthy, JsNum.maxOne, JsNum.subOne, JsNum.mul]
      simp [listBlogs, hpage, hlimit, hq, htitle, falsy, hpg, pageOf, JsNum.toNat?]
  · intro hst
    simp [listFilter, hst]
  · intro hst
    simp [myFilter, hst]
  · intro hst
    simp [myFilter, hst]

theorem listing_filters_witness :
    falsy (none : Option Str) = true ∧
    (listFilter Lib.sample sampleStore
      { page := none, limit := none, state := none, q := none, author := none,
        title := none, tags := none, sort := some "-read_count".toList }).state
      = some "published".toList :=
  ⟨rfl, ((listing_filters Lib.sample sampleStore 0
      { page := none, limit := none, state := none, q := none, author := none,
        title := none, tags := none, sort := some "-read_count".toList }).1 rfl).1⟩

/-! ## Signup -/

/-- C8: a signup that supplies first name, last name, email and password and
whose email is the email of a stored user is answered 409 and leaves the store
as it was, whatever the names, the password and the bio are; in particular a
signup that repeats the email of a signup just answered 201 is answered 409. -/
theorem signup_duplicate_email (lib : Lib) (s : Store) (first req : SignupReq)
    (h1 : falsy req.first_name = false) (h2 : falsy req.last_name = false)
    (h3 : falsy req.email = false) (h4 : falsy req.password = false) :
    ((∃ u ∈ s.users, some u.email = req.email) →
      (signup lib s req).1.status? = some 409 ∧ (signup lib s req).2 = s) ∧
    ((signup lib s first).1.status? = some 201 → req.email = first.email →
      (signup lib (signup lib s first).2 req).1.status? = some 409 ∧
      (signup lib (signup lib s first).2 req).2 = (signup lib s first).2) := by
  have dup : ∀ t : Store, (∃ u ∈ t.users, some u.email = req.email) →
      (signup lib t req).1.status? = some 409 ∧ (signup lib t req).2 = t := by
    intro t hex
    obtain ⟨u, hu, hue⟩ := hex
    have hfind : (t.findUserByEmail (req.email.getD [])).isSome = true := by
      unfold Store.findUserByEmail
      rw [List.find?_isSome]
      exact ⟨u, hu, by rw [← hue]; simp⟩
    obtain ⟨v, hv⟩ := Option.isSome_iff_exists.1 hfind
    simp [signup, h1, h2, h3, h4, hv, Outcome.status?]
  refine ⟨dup s, ?_⟩
  intro hok hemail
  apply dup
  cases hfe : first.email with
  | none =>
    rw [hemail, hfe] at h3
    simp [falsy] at h3
  | some e =>
    by_cases hc : (falsy first.first_name || falsy first.last_name || falsy first.email ||
        falsy first.password) = true
    · simp [signup, hc, Outcome.status?] at hok
    · cases hf : s.findUserByEmail (first.email.getD []) with
      | some v => simp [signup, hc, hf, Outcome.status?] at hok
      | none =>
        simp only [signup, hc, hf]
        refine ⟨_, List.mem_append_right _ (List.mem_singleton_self _), ?_⟩
        simp [hemail, hfe]

theorem signup_duplicate_email_witness :
    (∃ u ∈ sampleStore.users, some u.email = some "alice@example.com".toList) ∧
    (signup Lib.sample sampleStore
      { first_name := some "Jane".toList, last_name := some "Doe".toList,
        email := some "alice@example.com".toList, password := some "password456".toList,
        bio := some "hello".toList }).1.status? = some 409 :=
  ⟨⟨sampleUser, by decide, by decide⟩,
    ((signup_duplicate_email Lib.sample sampleStore
      { first_name := none, last_name := none, email := none, password := none, bio := none }
      { first_name := some "Jane".toList, last_name := some "Doe".toList,
        email := some "alice@example.com".toList, password := some "password456".toList,
        bio := some "hello".toList }
      rfl rfl rfl rfl).1 ⟨sampleUser, by decide, by decide⟩).1⟩

/-! ## The state of a blog along a sequence of requests -/

/-- Lookup commutes with a rewrite of the collection that keeps ids. -/
theorem findBlog_map (s : Store) (f : Blog → Blog) (hf : ∀ x, (f x)._id = x._id) (i : Oid) :
    Store.findBlog { s with blogs := s.blogs.map f } i = (s.findBlog i).map f := by
  unfold Store.findBlog
  simp only [List.find?_map]
  congr 1
  apply congrArg (fun p => List.find? p s.blogs)
  funext x
  simp [Function.comp, hf]

/-- Lookup after a deletion. -/
theorem findBlog_removeBlog (s : Store) (i j : Oid) :
    (s.removeBlog j).findBlog i = if i = j then none else s.findBlog i := by
  unfold Store.removeBlog Store.findBlog
  simp only
  induction s.blogs with
  | nil => simp
  | cons x xs ih =>
    rw [List.filter_cons]
    by_cases hxj : x._id = j
    · have h1 : (x._id != j) = false := by simp [hxj]
      rw [h1, if_neg (by simp), ih]
      by_cases hij : i = j
      · simp [hij]
      · have hxi : (x._id == i) = false := by
          simp only [beq_eq_false_iff_ne, ne_eq]
          intro h
          exact hij (h ▸ hxj)
        simp [hij, List.find?_cons, hxi]
    · have h1 : (x._id != j) = true := by simp [hxj]
      rw [h1, if_pos rfl, List.find?_cons, List.find?_cons]
      by_cases hxi : x._id = i
      · have hij : ¬ i = j := fun h => hxj (hxi.trans h)
        simp [hxi, hij]
      · have hxi2 : (x._id == i) = false := by simpa using hxi
        simp only [hxi2]
        exact ih

/-- Lookup after an insertion of a document with another id. -/
theorem findBlog_insert (s : Store) (b : Blog) (n : Nat) (i : Oid) (hi : b._id ≠ i) :
    Store.findBlog { s with blogs := s.blogs ++ [b], nextId := n } i = s.findBlog i := by
  unfold Store.findBlog
  simp only [List.find?_append]
  cases h : List.find? (fun b => b._id == i) s.blogs with
  | none => simp [hi]
  | some x => simp

/-- The invariant survives a rewrite that keeps ids and keeps the blog `i`
published. -/
theorem publishedAt_map {s : Store} {i : Oid} (f : Blog → Blog)
    (hf : ∀ x, (f x)._id = x._id)
    (hst : ∀ x, s.findBlog i = some x → x.state = .published → (f x).state = .published)
    (h : s.publishedAt i) :
    Store.publishedAt { s with blogs := s.blogs.map f } i := by
  obtain ⟨h1, h2, h3⟩ := h
  refine ⟨?_, h2, ?_⟩
  · intro b hbm
    simp only [List.mem_map] at hbm
    obtain ⟨y, hy, rfl⟩ := hbm
    rw [hf]
    exact h1 y hy
  · intro b hfb
    rw [findBlog_map s f hf] at hfb
    cases hx : s.findBlog i with
    | none => rw [hx] at hfb; exact Option.noConfusion hfb
    | some x =>
      rw [hx] at hfb
      simp only [Option.map_some', Option.some.injEq] at hfb
      subst hfb
      exact hst x hx (h3 x hx)

/-- The invariant survives writing back a stored blog whose state did not go
from published to draft. -/
theorem publishedAt_replace {s : Store} {i : Oid} {old new : Blog}
    (hold : s.findBlog old._id = some old) (hid : new._id = old._id)
    (hst : old.state = .published → new.state = .published)
    (h : s.publishedAt i) : (s.replaceBlog new).publishedAt i := by
  unfold Store.replaceBlog
  apply publishedAt_map _ _ _ h
  · intro x
    split
    · next hx => rw [hx]
    · rfl
  · intro x hx hpub
    split
    · next hxn =>
      have hxi := findBlog_id hx
      have : some x = some old := by
        rw [← hx, ← hold, ← hid, ← hxn, hxi]
      simp only [Option.some.injEq] at this
      subst this
      exact hst hpub
    · exact hpub

/-- The invariant survives a deletion. -/
theorem publishedAt_remove {s : Store} {i j : Oid} (h : s.publishedAt i) :
    (s.removeBlog j).publishedAt i := by
  obtain ⟨h1, h2, h3⟩ := h
  refine ⟨?_, h2, ?_⟩
  · intro b hbm
    exact h1 b (List.mem_filter.1 hbm).1
  · intro b hfb
    rw [findBlog_removeBlog] at hfb
    split at hfb
    · exact Option.noConfusion hfb
    · exact h3 b hfb

/-- The invariant survives the insertion of a document with a fresh id. -/
theorem publishedAt_insert {s : Store} {i : Oid} {b : Blog} (hb : b._id = s.nextId)
    (h : s.publishedAt i) :
    Store.publishedAt { s with blogs := s.blogs ++ [b], nextId := s.nextId + 1 } i := by
  obtain ⟨h1, h2, h3⟩ := h
  refine ⟨?_, Nat.lt_succ_of_lt h2, ?_⟩
  · intro x hx
    simp only [List.mem_append, List.mem_singleton] at hx
    rcases hx with hx | hx
    · exact Nat.lt_succ_of_lt (h1 x hx)
    · subst hx
      simp only [hb]
      exact Nat.lt_succ_self _
  · intro x hx
    have hne : b._id ≠ i := by
      rw [hb]
      exact Nat.ne_of_gt h2
    rw [findBlog_insert s b _ i hne] at hx
    exact h3 x hx

/-- The merge keeps the id, and keeps a published blog published unless the
request body has `state: "draft"`. -/
theorem applyUpdates_state {lib : Lib} {b b' : Blog} {u : Updates}
    (h : applyUpdates lib b u = some b') :
    b'._id = b._id ∧
    (u.state ≠ some "draft".toList → b.state = .published → b'.state = .published) := by
  unfold applyUpdates at h
  simp only at h
  split at h
  · next author state ha hs =>
    simp only [Option.some.injEq] at h
    subst h
    refine ⟨rfl, ?_⟩
    intro hnd hpub
    simp only
    cases hu : u.state with
    | none =>
      rw [hu] at hs
      simp only [Option.some.injEq] at hs
      rw [← hs]; exact hpub
    | some st =>
      rw [hu] at hs
      simp only at hs
      unfold BlogState.ofStr? at hs
      split at hs
      · next hd => rw [hu, hd] at hnd; exact absurd rfl hnd
      · split at hs
        · simp only [Option.some.injEq] at hs; exact hs.symm
        · exact Option.noConfusion hs
  · exact Option.noConfusion h

/-- Setting `updates.reading_time` leaves `updates.state` alone. -/
theorem withReadingTime_state (b : Blog) (u : Updates) :
    (withReadingTime b u).state = u.state := by
  unfold withReadingTime
  split <;> rfl

/-- A successful save of a stored document writes it back. -/
theorem saveBlog_ok {s s' : Store} {b : Blog} (h : s.saveBlog b = .ok s') :
    s' = s.replaceBlog b := by
  unfold Store.saveBlog at h
  split at h
  · exact Except.noConfusion h
  · split at h
    · exact Except.noConfusion h
    · injection h with h
      exact h.symm

/-- A successful save of a new document appends it and advances the counter. -/
theorem insertBlog_ok {s s' : Store} {b : Blog} (h : s.insertBlog b = .ok s') :
    s' = { s with blogs := s.blogs ++ [b], nextId := s.nextId + 1 } := by
  unfold Store.insertBlog at h
  split at h
  · exact Except.noConfusion h
  · split at h
    · exact Except.noConfusion h
    · injection h with h
      exact h.symm

/-- One request that is no update to `state: "draft"` keeps the invariant. -/
theorem step_publishedAt (lib : Lib) (s : Store) (op : Op) (i : Oid)
    (hop : op.setsDraft = false) (h : s.publishedAt i) : (step lib s op).publishedAt i := by
  cases op with
  | createBlog user req now =>
    simp only [step, createBlog]
    split
    · exact h
    · split
      · exact h
      · split
        · exact h
        · next s' hs' =>
          rw [insertBlog_ok hs']
          exact publishedAt_insert rfl h
  | updateBlog user id updates =>
    have hnd : updates.state ≠ some "draft".toList := by
      simpa [Op.setsDraft] using hop
    simp only [step, updateBlog]
    split
    · exact h
    · split
      · exact h
      · next oid blog hblog =>
        split
        · exact h
        · split
          · exact h
          · split
            · exact h
            · next blog2 hap =>
              have hid := findBlog_id hblog
              obtain ⟨hid2, hst⟩ := applyUpdates_state hap
              rw [withReadingTime_state] at hst
              split
              · exact h
              · next s' hs' =>
                rw [saveBlog_ok hs']
                exact publishedAt_replace (by rw [hid]; exact hblog) hid2 (hst hnd) h
  | publishBlog user id =>
    simp only [step, publishBlog]
    split
    · exact h
    · split
      · exact h
      · next oid blog hblog =>
        have hid := findBlog_id hblog
        split
        · exact h
        · split
          · exact h
          · next s' hs' =>
            rw [saveBlog_ok hs']
            exact @publishedAt_replace s i blog _ (by rw [hid]; exact hblog) rfl
              (fun _ => rfl) h
  | deleteBlog user id =>
    simp only [step, deleteBlog]
    split
    · exact h
    · split
      · exact h
      · split
        · exact h
        · exact publishedAt_remove h
  | getBlog id authorization =>
    have hinc : ∀ oid, (s.incReadCount oid).publishedAt i := by
      intro oid
      unfold Store.incReadCount
      apply publishedAt_map _ _ _ h
      · intro x; split <;> rfl
      · intro x _ hpub; split
        · exact hpub
        · exact hpub
    simp only [step, getBlog]
    repeat' split
    all_goals first | exact h | exact hinc _

/-- A sequence of such requests keeps the invariant. -/
theorem run_publishedAt (lib : Lib) (ops : List Op) (s : Store) (i : Oid)
    (hops : ∀ op ∈ ops, op.setsDraft = false) (h : s.publishedAt i) :
    (run lib s ops).publishedAt i := by
  induction ops generalizing s with
  | nil => exact h
  | cons op rest ih =>
    simp only [run, List.foldl_cons]
    exact ih (step lib s op) (fun o ho => hops o (List.mem_cons_of_mem _ ho))
      (step_publishedAt lib s op i (hops op (List.mem_cons_self _ _)) h)

/-- C9 as stated fails: the owner's update `{ "state": "draft" }` of a
published blog is accepted and stores the blog as a draft again. -/
theorem update_takes_published_back_to_draft :
    ¬ (∀ (lib : Lib) (s : Store) (ops : List Op) (i : Oid) (b b' : Blog),
        s.idsBelowCounter → s.findBlog i = some b → b.state = .published →
        (run lib s ops).findBlog i = some b' → b'.state = .published) := by
  intro h
  have h1 := h Lib.sample sampleStore [.updateBlog 0 samplePublishedId backToDraft] 2
    samplePublished { samplePublished with state := .draft }
    (by unfold Store.idsBelowCounter; decide) (by decide) (by decide) (by decide)
  revert h1
  decide

/-- C9, amended: along every sequence of createBlog, updateBlog, publishBlog,
deleteBlog and getBlog requests in which no update carries `state: "draft"`,
a blog that is published at some point is published at every later point at
which a blog with its id exists. -/
theorem published_stays_published (lib : Lib) (s : Store) (ops : List Op) (i : Oid)
    (b b' : Blog) (hwf : s.idsBelowCounter) (hops : ∀ op ∈ ops, op.setsDraft = false)
    (hb : s.findBlog i = some b) (hpub : b.state = .published)
    (hb' : (run lib s ops).findBlog i = some b') : b'.state = .published := by
  have hgood : s.publishedAt i := by
    refine ⟨hwf, ?_, ?_⟩
    · have := hwf b (findBlog_mem hb)
      rwa [findBlog_id hb] at this
    · intro x hx
      rw [hb] at hx
      injection hx with hx
      rw [← hx]
      exact hpub
  exact (run_publishedAt lib ops s i hops hgood).2.2 b' hb'

theorem published_stays_published_witness :
    sampleStore.idsBelowCounter ∧
    sampleStore.findBlog 2 = some samplePublished ∧
    samplePublished.state = .published ∧
    ((run Lib.sample sampleStore
        [.getBlog samplePublishedId none,
         .updateBlog 0 samplePublishedId { Updates.none with body := some "New text".toList },
         .publishBlog 0 samplePublishedId,
         .deleteBlog 0 sampleDraftId]).findBlog 2).map (fun x => x.state)
      = some .published :=
  ⟨by unfold Store.idsBelowCounter; decide, by decide, rfl, by
    have h := published_stays_published Lib.sample sampleStore
      [.getBlog samplePublishedId none,
       .updateBlog 0 samplePublishedId { Updates.none with body := some "New text".toList },
       .publishBlog 0 samplePublishedId,
       .deleteBlog 0 sampleDraftId] 2 samplePublished
      { samplePublished with read_count := 5, body := "New text".toList }
      (by unfold Store.idsBelowCounter; decide) (by decide) (by decide) rfl (by decide)
    rw [show (run Lib.sample sampleStore
        [.getBlog samplePublishedId none,
         .updateBlog 0 samplePublishedId { Updates.none with body := some "New text".toList },
         .publishBlog 0 samplePublishedId,
         .deleteBlog 0 sampleDraftId]).findBlog 2
        = some { samplePublished with read_count := 5, body := "New text".toList } from by decide]
    exact congrArg some h⟩

/-! ## Reading time on update -/

set_option maxRecDepth 100000 in
/-- C10: a blog created with a description of 200 words and a body of one word
has reading_time 2.  The owner's update `{ "description": "" }` is answered
200 and stores the empty description, but the stored reading_time stays 2,
while `calculateReadingTime` of the merged text (empty description, a space,
the body) is 1. -/
theorem updateBlog_empty_description_stale :
    ((createBlog Store.empty 0 longDescriptionReq 100).2.findBlog 0).map
      (fun b => b.reading_time) = some 2 ∧
    (updateBlog Lib.sample (createBlog Store.empty 0 longDescriptionReq 100).2 0
      (hexString 24 0) emptyDescription).1.status? = some 200 ∧
    ((updateBlog Lib.sample (createBlog Store.empty 0 longDescriptionReq 100).2 0
      (hexString 24 0) emptyDescription).2.findBlog 0).map
        (fun b => (b.description, b.body, b.reading_time))
      = some (some [], "b".toList, 2) ∧
    calculateReadingTime (some (([] : Str) ++ [' '] ++ "b".toList)) = 1 := by
  decide

/-- The expression `d || ""` on an optional string. -/
theorem orEmpty_eq_getD (d : Option Str) : (if falsy d = true then [] else d.getD []) = d.getD [] := by
  cases d with
  | none => rfl
  | some t => cases t <;> simp [falsy]

/-- With a non-empty body or description in the request, `updates.reading_time`
is computed from the merged description and body. -/
theorem withReadingTime_truthy (b : Blog) (u : Updates)
    (h : falsy u.body = false ∨ falsy u.description = false) :
    (withReadingTime b u).reading_time = some (calculateReadingTime (some
      (((match u.description with
          | none => b.description
          | some d => some d).getD []) ++ [' '] ++ u.body.getD b.body))) := by
  have hcond : (!falsy u.body || !falsy u.description) = true := by
    rcases h with h1 | h1 <;> simp [h1]
  unfold withReadingTime
  rw [if_pos hcond]
  simp only [orEmpty_eq_getD]
  cases u.body <;> rfl

/-- The merge takes `reading_time` from the request when it is there. -/
theorem applyUpdates_reading_time {lib : Lib} {b r : Blog} {u : Updates}
    (h : applyUpdates lib b u = some r) :
    r.reading_time = u.reading_time.getD b.reading_time := by
  unfold applyUpdates at h
  simp only at h
  split at h
  · simp only [Option.some.injEq] at h
    subst h
    rfl
  · exact Option.noConfusion h

/-- The part of C10 that holds: when an update is answered 200 and its body or
its description is a non-empty string, the stored reading_time is
`calculateReadingTime` of the merged description, a space and the merged body;
when the request has neither body nor description nor reading_time, the stored
reading_time is the one before. -/
theorem updateBlog_reading_time (lib : Lib) (s s' : Store) (user : Oid) (id : Str)
    (u : Updates) (r : Blog)
    (h : updateBlog lib s user id u = (.respond 200 (.blog r), s')) :
    ∃ oid b, lib.castObjectId id = some oid ∧ s.findBlog oid = some b ∧
      s'.findBlog oid = some r ∧
      ((falsy u.body = false ∨ falsy u.description = false) →
        r.reading_time = calculateReadingTime (some
          (((match u.description with
              | none => b.description
              | some d => some d).getD []) ++ [' '] ++ u.body.getD b.body))) ∧
      (u.body = none → u.description = none → u.reading_time = none →
        r.reading_time = b.reading_time) := by
  unfold updateBlog at h
  split at h
  · simp at h
  · next oid hoid =>
    split at h
    · simp at h
    · next b hb =>
      split at h
      · simp at h
      · split at h
        · simp at h
        · split at h
          · simp at h
          · next r2 hap =>
            split at h
            · simp at h
            · next s2 hs2 =>
              simp only [Prod.mk.injEq, Outcome.respond.injEq, Body.blog.injEq, true_and] at h
              obtain ⟨hr, hs⟩ := h
              subst hr hs
              have hbid := findBlog_id hb
              have hrid := (applyUpdates_state hap).1
              have hrt := applyUpdates_reading_time hap
              refine ⟨oid, b, hoid, hb, ?_, ?_, ?_⟩
              · rw [saveBlog_ok hs2]
                unfold Store.replaceBlog
                rw [findBlog_map s _ _ oid, hb]
                · simp [hrid, hbid]
                · intro x
                  split
                  · next hx => rw [hx]
                  · rfl
              · intro htruthy
                rw [hrt, withReadingTime_truthy b u htruthy]
                rfl
              · intro h1 h2 h3
                rw [hrt]
                simp [withReadingTime, h1, h2, h3, falsy]

/-! ## The sort parameter -/

/-- The sort parameter where it behaves as described: a `-` followed by an
allowed field sorts by it descending, an allowed field alone sorts by it
ascending, an absent or empty parameter gives the default, and so does every
string that is not an allowed field once its first `-` is removed, in
particular every string without `-` that is no allowed field. -/
theorem buildSort_cases :
    (∀ f ∈ allowedSortFields, buildSort (some ('-' :: f)) = { field := f, order := -1 }) ∧
    (∀ f ∈ allowedSortFields, buildSort (some f) = { field := f, order := 1 }) ∧
    buildSort none = { field := "timestamp".toList, order := -1 } ∧
    buildSort (some []) = { field := "timestamp".toList, order := -1 } ∧
    (∀ t : Str, allowedSortFields.contains (removeFirstDash t) = false →
      buildSort (some t) = { field := "timestamp".toList, order := -1 }) ∧
    (∀ t : Str, '-' ∉ t → t ∉ allowedSortFields →
      buildSort (some t) = { field := "timestamp".toList, order := -1 }) := by
  have hdash : ∀ t : Str, '-' ∉ t → removeFirstDash t = t := by
    intro t ht
    induction t with
    | nil => rfl
    | cons c cs ih =>
      have hc : c ≠ '-' := fun h => ht (h ▸ List.mem_cons_self _ _)
      have hcs : '-' ∉ cs := fun h => ht (List.mem_cons_of_mem _ h)
      simp [removeFirstDash, hc, ih hcs]
  have hfall : ∀ t : Str, allowedSortFields.contains (removeFirstDash t) = false →
      buildSort (some t) = { field := "timestamp".toList, order := -1 } := by
    intro t ht
    have ht2 : removeFirstDash t ∉ allowedSortFields := by simpa using ht
    unfold buildSort
    split
    · rfl
    · simp [ht2]
  refine ⟨?_, ?_, rfl, rfl, hfall, ?_⟩
  · intro f hf
    simp only [allowedSortFields, List.mem_cons, List.mem_singleton, List.mem_nil_iff,
      or_false] at hf
    rcases hf with rfl | rfl | rfl <;> decide
  · intro f hf
    simp only [allowedSortFields, List.mem_cons, List.mem_singleton, List.mem_nil_iff,
      or_false] at hf
    rcases hf with rfl | rfl | rfl <;> decide
  · intro t hd ht
    apply hfall
    rw [hdash t hd]
    simpa using ht

/-- With the default page and limit the window is the first 20 documents. -/
theorem paginate_default :
    paginate none none = { skip := .fin 0, limit := .fin 20, page := .fin 1 } := by
  simp [paginate, JsNum.orElse, JsNum.truthy, JsNum.maxOne, JsNum.subOne, JsNum.mul]

/-- The documents `listBlogs` sends for a query with only a `sort` parameter. -/
theorem listBlogs_sortOnly (lib : Lib) (s : Store) (sort : Option Str) :
    (listBlogs lib s (sortOnly sort)).docIds
      = some (((sortBlogs (buildSort sort)
          (s.blogs.filter ((listFilter lib s (sortOnly sort)).matches lib))).take 20).map
            (fun b => b._id)) := by
  simp [listBlogs, sortOnly, paginate_default, pageOf, JsNum.toNat?, Outcome.docIds, falsy]
  rfl

/-- The documents `myBlogs` sends for a query with only a `sort` parameter. -/
theorem myBlogs_sortOnly (lib : Lib) (s : Store) (user : Oid) (sort : Option Str) :
    (myBlogs lib s user (sortOnly sort)).docIds
      = some (((sortBlogs (buildSort sort)
          (s.blogs.filter ((myFilter user (sortOnly sort)).matches lib))).take 20).map
            (fun b => b._id)) := by
  simp [myBlogs, sortOnly, paginate_default, pageOf, JsNum.toNat?, Outcome.docIds]

/-- C11: the sort parameter `read-_count` has its `-` in the middle and names
no allowed field, yet `sort.replace("-", "")` turns it into `read_count` and
the sort applied is `read_count` ascending instead of the default `timestamp`
descending; `listBlogs` and `myBlogs` then send the documents in the opposite
order of the default. -/
theorem buildSort_inner_dash :
    "read-_count".toList ∉ allowedSortFields ∧
    buildSort none = { field := "timestamp".toList, order := -1 } ∧
    buildSort (some "read-_count".toList) = { field := "read_count".toList, order := 1 } ∧
    (listBlogs Lib.sample samplePublishedStore (sortOnly none)).docIds = some [2, 1] ∧
    (listBlogs Lib.sample samplePublishedStore (sortOnly (some "read-_count".toList))).docIds
      = some [1, 2] ∧
    (myBlogs Lib.sample sampleStore 0 (sortOnly none)).docIds = some [2, 1] ∧
    (myBlogs Lib.sample sampleStore 0 (sortOnly (some "read-_count".toList))).docIds
      = some [1, 2] := by
  refine ⟨by decide, by decide, by decide, ?_, ?_, ?_, ?_⟩
  · rw [listBlogs_sortOnly]; decide
  · rw [listBlogs_sortOnly]; decide
  · rw [myBlogs_sortOnly]; decide
  · rw [myBlogs_sortOnly]; decide

end BlogApi
